import Mathlib

/-
Shallow embedding of the repo_structure rule-matching engine.

The embedding follows the Python sources of the repository:
  repo_structure/repo_structure_config.py      (rule compiler, template expander)
  repo_structure/repo_structure_full_scan.py   (full repository scan)
  repo_structure/repo_structure_diff_scan.py   (single-path diff scan)
  repo_structure/repo_structure_enforcement.py (older combined module; the
    matcher _get_matching_item_index cited by the claims lives here)
  repo_structure_lib.py                        (rel_dir/map_dir conversions)

The package module repo_structure/repo_structure_lib.py (the shared helpers
imported by the full scan and the diff scan, among them the forbidden-aware
matcher and the ScanIssue record) is not part of the source snapshot; those
definitions are modelled from the specification and are marked
"Modelled from the spec:" in their doc comments.

Compiled regular expressions are embedded as total predicates on strings
(re.fullmatch is an external collaborator of the engine); the gitignore
predicate is likewise abstracted as an optional predicate.

The mutable count field of a RepoEntry is embedded through an explicit store
(object identity becomes a cell id), so that the frame claim about the
canonical Configuration never being mutated is a real statement.  Recursion
over the file system is fuel-indexed; running out of fuel is a distinguished
error that no theorem below relies on.
-/

deriving instance DecidableEq for Except

namespace RepoStructure

/-- Model of os.path.join for the relative slash paths used by the scanners
(neither argument is absolute except possibly the left one being empty). -/
def pyJoin (a b : String) : String := if a = "" then b else a ++ "/" ++ b

/-- Model of the Python expression s.strip("/"): remove leading and trailing
slash characters. -/
def pyStripSlashes (s : String) : String :=
  String.mk (((s.toList.dropWhile (· == '/')).reverse.dropWhile (· == '/')).reverse)

/-- Model of str.startswith (character-list based so that concrete
evaluation reduces inside the kernel). -/
def pyStartsWith (s pre : String) : Bool := pre.toList.isPrefixOf s.toList

/-- Model of str.endswith. -/
def pyEndsWith (s suf : String) : Bool := suf.toList.isSuffixOf s.toList

/-- The splitting loop behind s.split("/"): splitting an empty string gives
the one-element list of the empty string, every slash opens a new segment. -/
def splitOnSlashChars : List Char → List (List Char)
  | [] => [[]]
  | c :: rest =>
    let r := splitOnSlashChars rest
    if c == '/' then [] :: r
    else (c :: r.headD []) :: r.tail

/-- Model of the Python expression s.split("/"), in particular "".split("/")
yields the one-element list [""]. -/
def pySplitSlash (s : String) : List String :=
  (splitOnSlashChars s.toList).map String.mk

/-- Model of "/".join(parts) from Python. -/
def pyJoinSlash (parts : List String) : String := String.intercalate "/" parts

/-- rel_dir_to_map_dir from repo_structure_lib.py: force a leading and a
trailing slash, mapping the empty and root paths to the root key. -/
def rel_dir_to_map_dir (rel_dir : String) : String :=
  if rel_dir = "" || rel_dir = "/" then "/"
  else
    let r := if pyStartsWith rel_dir "/" then rel_dir else "/" ++ rel_dir
    if pyEndsWith r "/" then r else r ++ "/"

/-- map_dir_to_rel_dir from repo_structure_lib.py: drop the first and last
character of a slash-bounded map key, mapping the root key to the empty
string. -/
def map_dir_to_rel_dir (map_dir : String) : String :=
  if map_dir = "" || map_dir = "/" then ""
  else String.mk ((map_dir.toList.drop 1).dropLast)

/-- RepoEntry from the configuration module: one pattern-governed rule.  The
compiled regular expression is abstracted into its source text together with a
total fullmatch predicate; the mutable count field lives in an external store
and is addressed by the cell id cid, which stands for the Python object
identity of the entry. -/
inductive RepoEntry : Type where
  | mk (pattern : String) (fullmatch : String → Bool) (is_dir : Bool)
      (is_required : Bool) (is_forbidden : Bool) (use_rule : String)
      (if_exists : List RepoEntry) (cid : Nat) : RepoEntry

def RepoEntry.pattern : RepoEntry → String
  | .mk p _ _ _ _ _ _ _ => p

def RepoEntry.fullmatch : RepoEntry → (String → Bool)
  | .mk _ m _ _ _ _ _ _ => m

def RepoEntry.is_dir : RepoEntry → Bool
  | .mk _ _ d _ _ _ _ _ => d

def RepoEntry.is_required : RepoEntry → Bool
  | .mk _ _ _ r _ _ _ _ => r

def RepoEntry.is_forbidden : RepoEntry → Bool
  | .mk _ _ _ _ f _ _ _ => f

def RepoEntry.use_rule : RepoEntry → String
  | .mk _ _ _ _ _ u _ _ => u

def RepoEntry.if_exists : RepoEntry → List RepoEntry
  | .mk _ _ _ _ _ _ l _ => l

def RepoEntry.cid : RepoEntry → Nat
  | .mk _ _ _ _ _ _ _ c => c

instance : Inhabited RepoEntry := ⟨.mk "" (fun _ => false) false false false "" [] 0⟩

/-- The dataclasses.replace copy performed by the backlog builder: all static
fields are shared (including the if_exists children, which are shared by
reference), only the count cell is new. -/
def RepoEntry.withCid : RepoEntry → Nat → RepoEntry
  | .mk p m d r f u l _, c => .mk p m d r f u l c

abbrev StructureRuleList := List RepoEntry

/-- structure_rules: insertion-ordered dict from rule name to entry list. -/
abbrev StructureRuleMap := List (String × StructureRuleList)

/-- directory_map: insertion-ordered dict from slash-bounded directory key to
the list of rule names bound to it. -/
abbrev DirectoryMap := List (String × List String)

/-- Configuration aggregate (structure rules, directory map, and the
self-registered configuration file name). -/
structure Configuration where
  structure_rules : StructureRuleMap
  directory_map : DirectoryMap
  configuration_file_name : String

/-- Flags from repo_structure_lib (follow_symlinks, include_hidden, verbose);
verbose only controls printing and has no semantic content. -/
structure Flags where
  follow_symlinks : Bool := false
  include_hidden : Bool := true
  verbose : Bool := false

/-- The store of mutable count fields, indexed by cell id. -/
abbrev CountStore := List Nat

def storeRead (σ : CountStore) (c : Nat) : Nat := σ.getD c 0

def storeWrite (σ : CountStore) (c : Nat) (v : Nat) : CountStore := σ.set c v

/-- The loop of _get_matching_item_index: the indices i such that
backlog[i].path.fullmatch(entry_path) is a match and backlog[i].is_dir equals
is_dir, collected in backlog order. -/
def matching_indices (backlog : StructureRuleList) (entry_path : String)
    (is_dir : Bool) : List Nat :=
  (List.range backlog.length).filter fun i =>
    (backlog.getD i default).fullmatch entry_path &&
      (backlog.getD i default).is_dir == is_dir

/-- Errors raised by the matchers. -/
inductive MatchErr where
  | unspecified (entry_path : String)
  | forbidden (entry_path : String)
deriving DecidableEq

/-- _get_matching_item_index from repo_structure_enforcement.py: collect all
matching indices; if there are none, raise UnspecifiedEntryError for the
entry path (with a trailing slash appended for directories). -/
def get_matching_item_index (backlog : StructureRuleList) (entry_path : String)
    (is_dir : Bool) : Except MatchErr (List Nat) :=
  let result := matching_indices backlog entry_path is_dir
  if result.length != 0 then .ok result
  else .error (.unspecified (if is_dir then entry_path ++ "/" else entry_path))

/-- A segment (entry_path, is_dir) matches backlog position i. -/
def MatchesAt (backlog : StructureRuleList) (entry_path : String) (is_dir : Bool)
    (i : Nat) : Prop :=
  i < backlog.length ∧ (backlog.getD i default).fullmatch entry_path = true ∧
    (backlog.getD i default).is_dir = is_dir

instance (backlog : StructureRuleList) (p : String) (d : Bool) (i : Nat) :
    Decidable (MatchesAt backlog p d i) := by
  unfold MatchesAt; infer_instance

/-- Errors of the engine, mirroring the exception classes of the sources
(UnspecifiedEntryError, ForbiddenEntryError, MissingRequiredEntriesError,
MissingMappingError, UseRuleError, TemplateError) together with the Python
runtime errors the code can raise (KeyError on a dict lookup,
FileNotFoundError and NotADirectoryError on os.scandir, ZeroDivisionError on
a modulus by zero) and the fuel exhaustion marker of the embedding. -/
inductive ScanErr where
  | missingMapping
  | unspecified (path : String)
  | forbidden (path : String)
  | missingRequired (files : List String) (dirs : List String)
  | keyError (key : String)
  | notFound (rel_dir : String)
  | useRuleError (use_rule : String) (pattern : String)
  | templateError (name : String)
  | zeroDivisionError
  | outOfFuel
deriving DecidableEq

/-- Modelled from the spec: _get_matching_item_index of the shared module
repo_structure/repo_structure_lib.py, which is not part of the source
snapshot (the full scan and the diff scan import it).  Spec section 4.4: all
matching entries are returned; if any matched entry is Forbidden,
ForbiddenEntryError is raised immediately, before any count is incremented;
if no entry matches, UnspecifiedEntryError is raised as in the older
_get_matching_item_index of repo_structure_enforcement.py. -/
def get_matching_item_index_lib (backlog : StructureRuleList)
    (entry_path : String) (is_dir : Bool) : Except MatchErr (List Nat) :=
  if (matching_indices backlog entry_path is_dir).any
      (fun i => (backlog.getD i default).is_forbidden) then
    .error (.forbidden entry_path)
  else get_matching_item_index backlog entry_path is_dir

/-- Entry: the internal representation of one directory entry (name, the
relative directory containing it, and its kind flags). -/
structure Entry where
  path : String
  rel_dir : String
  is_dir : Bool
  is_symlink : Bool

/-- _skip_entry: an entry is excluded from validation when it is a symlink
(and symlinks are not followed), hidden (and hidden files are excluded), the
gitignore file itself, the .git directory, matched by the gitignore
predicate, a directory owned by another directory mapping, or the
configuration file itself. -/
def skip_entry (entry : Entry) (directory_map : DirectoryMap)
    (configuration_file_name : String) (git_ignore : Option (String → Bool))
    (flags : Flags) : Bool :=
  (!flags.follow_symlinks && entry.is_symlink) ||
  (!flags.include_hidden && pyStartsWith entry.path ".") ||
  (entry.path == ".gitignore" && !entry.is_dir) ||
  (entry.path == ".git" && entry.is_dir) ||
  (match git_ignore with
   | some g => g entry.path
   | none => false) ||
  (entry.is_dir &&
    (directory_map.lookup
      (rel_dir_to_map_dir (pyJoin entry.rel_dir entry.path))).isSome) ||
  (entry.path == configuration_file_name)

/-- Model of the scanned file tree: a file, or a directory with its children
in OS listing order; a child carries its name, its symlink flag and its
node.  A symlink child's node is the link target's node (os.DirEntry.is_dir
follows links), but with the default flags symlinks are skipped before the
node is inspected. -/
inductive FSNode : Type where
  | file : FSNode
  | dir (children : List (String × Bool × FSNode)) : FSNode

def FSNode.isDir : FSNode → Bool
  | .file => false
  | .dir _ => true

def FSNode.lookupPath : FSNode → List String → Option FSNode
  | n, [] => some n
  | .file, _ :: _ => none
  | .dir cs, seg :: rest =>
    match cs.find? (fun c => c.1 == seg) with
    | some c => c.2.2.lookupPath rest
    | none => none

/-- os.scandir(os.path.join(repo_root, rel_dir)) on the modelled tree: the
children of the directory named by rel_dir; FileNotFoundError or
NotADirectoryError (both modelled as notFound) when rel_dir does not name a
directory of the tree. -/
def scandir (tree : FSNode) (rel_dir : String) :
    Except ScanErr (List (String × Bool × FSNode)) :=
  match tree.lookupPath (if rel_dir = "" then [] else pySplitSlash rel_dir) with
  | some (.dir cs) => .ok cs
  | _ => .error (.notFound rel_dir)

/-- The copy loop shared by _build_active_entry_backlog and
_handle_if_exists: each entry is copied with dataclasses.replace, which in
the store embedding allocates a fresh count cell initialized with the value
of the source entry's cell (replace copies the count field). -/
def allocCopies : List RepoEntry → CountStore →
    StructureRuleList × CountStore
  | [], σ => ([], σ)
  | e :: rest, σ =>
    let r := allocCopies rest (σ ++ [storeRead σ e.cid])
    (e.withCid σ.length :: r.1, r.2)

/-- _build_active_entry_backlog: concatenate, in order, fresh copies of the
entries of each named rule.  A rule name absent from structure_rules is a
KeyError.  Modelled from the spec: the builtin ignore rule has no entries
and contributes nothing (the diff scan obtains an empty backlog for a
directory mapped to ignore). -/
def build_active_entry_backlog (active_use_rules : List String)
    (structure_rules : StructureRuleMap) (σ : CountStore) :
    Except ScanErr (StructureRuleList × CountStore) :=
  match active_use_rules with
  | [] => .ok ([], σ)
  | rule :: rest =>
    if rule == "ignore" then
      build_active_entry_backlog rest structure_rules σ
    else
      match structure_rules.lookup rule with
      | none => .error (.keyError rule)
      | some entries =>
        match build_active_entry_backlog rest structure_rules
            (allocCopies entries σ).2 with
        | .ok (tail, σ'') => .ok ((allocCopies entries σ).1 ++ tail, σ'')
        | .error e => .error e

/-- _handle_use_rule as used by the full scan: the entries appended to a new
backlog for a matched directory entry carrying a use_rule reference (nothing
when the reference is empty). -/
def handle_use_rule (use_rule : String) (structure_rules : StructureRuleMap)
    (σ : CountStore) : Except ScanErr (StructureRuleList × CountStore) :=
  if use_rule ≠ "" then build_active_entry_backlog [use_rule] structure_rules σ
  else .ok ([], σ)

/-- _handle_if_exists as used by the full scan: replace-copies of the
if_exists children of a matched directory entry. -/
def handle_if_exists (backlog_entry : RepoEntry) (σ : CountStore) :
    StructureRuleList × CountStore :=
  allocCopies backlog_entry.if_exists σ

/-- The missing_required collection loop of
_fail_if_required_entries_missing. -/
def missing_required (σ : CountStore) (entry_backlog : StructureRuleList) :
    StructureRuleList :=
  entry_backlog.filter fun e => e.is_required && storeRead σ e.cid == 0

/-- _fail_if_required_entries_missing from repo_structure_full_scan.py:
raise MissingRequiredEntriesError naming the pattern of every required entry
whose count is zero, split into files and directories. -/
def fail_if_required_entries_missing (σ : CountStore)
    (entry_backlog : StructureRuleList) : Except ScanErr Unit :=
  let missing := missing_required σ entry_backlog
  if missing.isEmpty then .ok ()
  else
    .error (.missingRequired
      ((missing.filter fun e => !e.is_dir).map (·.pattern))
      ((missing.filter fun e => e.is_dir).map (·.pattern)))

mutual

/-- The directory-entry loop of _fail_if_invalid_repo_structure_recursive
from repo_structure_full_scan.py: for each non-skipped child of the current
directory, match it against the backlog (re-raising the matcher errors with
the slash-joined path) and process every matched index.  The fuel argument
only bounds the recursion depth of the embedding; running out of fuel is the
distinguished outOfFuel error. -/
def scan_children (config : Configuration) (git_ignore : Option (String → Bool))
    (flags : Flags) : Nat → String → List (String × Bool × FSNode) →
    StructureRuleList → CountStore → Except ScanErr CountStore
  | 0, _, _, _, _ => .error .outOfFuel
  | _ + 1, _, [], _, σ => .ok σ
  | fuel + 1, rel_dir, (name, sym, node) :: rest, backlog, σ =>
    if skip_entry ⟨name, rel_dir, node.isDir, sym⟩ config.directory_map
        config.configuration_file_name git_ignore flags then
      scan_children config git_ignore flags fuel rel_dir rest backlog σ
    else
      match get_matching_item_index_lib backlog name node.isDir with
      | .error (.unspecified _) => .error (.unspecified (rel_dir ++ "/" ++ name))
      | .error (.forbidden _) => .error (.forbidden (rel_dir ++ "/" ++ name))
      | .ok indices =>
        match scan_matches config git_ignore flags fuel rel_dir name node
            indices backlog σ with
        | .error e => .error e
        | .ok σ' => scan_children config git_ignore flags fuel rel_dir rest backlog σ'
termination_by structural fuel => fuel

/-- The matched-index loop of _fail_if_invalid_repo_structure_recursive: for
each matched index, increment the matched entry's count cell; if the child
is a directory, build a new backlog from its use_rule entries followed by
its if_exists copies, recurse into the child, and check the new backlog for
missing required entries. -/
def scan_matches (config : Configuration) (git_ignore : Option (String → Bool))
    (flags : Flags) : Nat → String → String → FSNode → List Nat →
    StructureRuleList → CountStore → Except ScanErr CountStore
  | 0, _, _, _, _, _, _ => .error .outOfFuel
  | _ + 1, _, _, _, [], _, σ => .ok σ
  | fuel + 1, rel_dir, name, node, idx :: rest, backlog, σ =>
    let be := backlog.getD idx default
    let σ1 := storeWrite σ be.cid (storeRead σ be.cid + 1)
    match node with
    | .file => scan_matches config git_ignore flags fuel rel_dir name node rest backlog σ1
    | .dir children =>
      match handle_use_rule be.use_rule config.structure_rules σ1 with
      | .error e => .error e
      | .ok (b1, σ2) =>
        let (b2, σ3) := handle_if_exists be σ2
        match scan_children config git_ignore flags fuel (pyJoin rel_dir name)
            children (b1 ++ b2) σ3 with
        | .error e => .error e
        | .ok σ4 =>
          match fail_if_required_entries_missing σ4 (b1 ++ b2) with
          | .error e => .error e
          | .ok _ =>
            scan_matches config git_ignore flags fuel rel_dir name node rest backlog σ4
termination_by structural fuel => fuel

end

/-- _map_dir_to_entry_backlog: look up the rules bound to the directory in
the directory map and build their backlog (a KeyError when the directory has
no mapping). -/
def map_dir_to_entry_backlog (directory_map : DirectoryMap)
    (structure_rules : StructureRuleMap) (map_dir : String) (σ : CountStore) :
    Except ScanErr (StructureRuleList × CountStore) :=
  match directory_map.lookup (rel_dir_to_map_dir map_dir) with
  | none => .error (.keyError (rel_dir_to_map_dir map_dir))
  | some use_rules => build_active_entry_backlog use_rules structure_rules σ

/-- _process_map_dir from repo_structure_full_scan.py: build the backlog of
one directory mapping, scan that directory recursively, then check the
backlog for missing required entries.  Modelled from the spec: a mapping
whose rule list is exactly the builtin [ignore] skips its subtree entirely
(spec section 4.5). -/
def process_map_dir (config : Configuration) (git_ignore : Option (String → Bool))
    (flags : Flags) (tree : FSNode) (fuel : Nat) (map_dir : String)
    (σ : CountStore) : Except ScanErr CountStore :=
  if config.directory_map.lookup map_dir == some ["ignore"] then .ok σ
  else
    let rel_dir := map_dir_to_rel_dir map_dir
    match map_dir_to_entry_backlog config.directory_map config.structure_rules
        rel_dir σ with
    | .error e => .error e
    | .ok (backlog, σ1) =>
      match scandir tree rel_dir with
      | .error e => .error e
      | .ok children =>
        match scan_children config git_ignore flags fuel rel_dir children
            backlog σ1 with
        | .error e => .error e
        | .ok σ2 =>
          match fail_if_required_entries_missing σ2 backlog with
          | .error e => .error e
          | .ok _ => .ok σ2

/-- The mapping loop of assert_full_repository_structure (sequential, as in
the source module). -/
def process_map_dirs (config : Configuration) (git_ignore : Option (String → Bool))
    (flags : Flags) (tree : FSNode) (fuel : Nat) : List String → CountStore →
    Except ScanErr CountStore
  | [], σ => .ok σ
  | d :: rest, σ =>
    match process_map_dir config git_ignore flags tree fuel d σ with
    | .error e => .error e
    | .ok σ' => process_map_dirs config git_ignore flags tree fuel rest σ'

/-- assert_full_repository_structure from repo_structure_full_scan.py: fail
with MissingMappingError when the root mapping is absent, otherwise process
every directory mapping in order.  The result is the final count store of
the embedding (the scan returns None in the source; the store stands for the
final state of all count fields). -/
def assert_full_repository_structure (config : Configuration)
    (git_ignore : Option (String → Bool)) (flags : Flags) (tree : FSNode)
    (fuel : Nat) (σ : CountStore) : Except ScanErr CountStore :=
  if (config.directory_map.lookup "/").isNone then .error .missingMapping
  else
    process_map_dirs config git_ignore flags tree fuel
      (config.directory_map.map (·.1)) σ

/-- ScanIssue as used by repo_structure_diff_scan.py: an issue code
(unspecified_entry or forbidden_entry), a message and the offending path.
Modelled from the spec: the record itself is defined in the missing shared
module; its three fields are read and assigned by check_path. -/
structure ScanIssue where
  code : String
  message : String
  path : String
deriving DecidableEq

/-- MatchResult of _get_matching_item_index_safe.  Modelled from the spec:
check_path reads success, a single index (the match used to continue the
walk) and the issue. -/
structure MatchResult where
  success : Bool
  index : Option Nat
  issue : Option ScanIssue
deriving DecidableEq

/-- Modelled from the spec: _get_matching_item_index_safe of the missing
shared module, the non-raising matcher used by the diff scan; it reports the
forbidden or unspecified failure as an issue and otherwise succeeds with the
first matching index (the diff scan continues its walk through exactly one
matched entry). -/
def get_matching_item_index_safe (backlog : StructureRuleList)
    (entry_path : String) (is_dir : Bool) : MatchResult :=
  match get_matching_item_index_lib backlog entry_path is_dir with
  | .ok l => ⟨true, some (l.headD 0), none⟩
  | .error (.forbidden p) =>
    ⟨false, none, some ⟨"forbidden_entry", "Found forbidden entry: " ++ p, p⟩⟩
  | .error (.unspecified p) =>
    ⟨false, none, some ⟨"unspecified_entry", "Found unspecified entry: " ++ p, p⟩⟩

/-- _incremental_path_split from repo_structure_diff_scan.py: strip slashes,
split on slashes, and emit one (rel_dir, part, is_directory) triple per
part, where rel_dir joins the preceding parts and only non-final parts are
directories. -/
def incremental_path_split (path_to_split : String) :
    List (String × String × Bool) :=
  let parts := pySplitSlash (pyStripSlashes path_to_split)
  (List.range parts.length).map fun i =>
    (pyJoinSlash (parts.take i), parts.getD i "", decide (i < parts.length - 1))

/-- _build_active_entry_backlog as invoked by the diff scan.  The diff scan
never reads nor writes the count fields, so the replace copies are embedded
as the entries themselves and no store is threaded.  Modelled from the spec:
the builtin ignore rule contributes nothing (a directory mapped to ignore
yields an empty backlog). -/
def build_active_entry_backlog_pure (active_use_rules : List String)
    (structure_rules : StructureRuleMap) : Except ScanErr StructureRuleList :=
  match active_use_rules with
  | [] => .ok []
  | rule :: rest =>
    if rule == "ignore" then build_active_entry_backlog_pure rest structure_rules
    else
      match structure_rules.lookup rule with
      | none => .error (.keyError rule)
      | some entries =>
        match build_active_entry_backlog_pure rest structure_rules with
        | .ok tail => .ok (entries ++ tail)
        | .error e => .error e

/-- _map_dir_to_entry_backlog as invoked by the diff scan (count-free). -/
def map_dir_to_entry_backlog_pure (directory_map : DirectoryMap)
    (structure_rules : StructureRuleMap) (map_dir : String) :
    Except ScanErr StructureRuleList :=
  match directory_map.lookup (rel_dir_to_map_dir map_dir) with
  | none => .error (.keyError (rel_dir_to_map_dir map_dir))
  | some use_rules => build_active_entry_backlog_pure use_rules structure_rules

/-- Modelled from the spec: _handle_use_rule as invoked by the diff scan
(missing module), returning the backlog of the referenced rule, or nothing
when the reference is empty; the caller combines it with _handle_if_exists
through Python or-truthiness. -/
def handle_use_rule_diff (use_rule : String)
    (structure_rules : StructureRuleMap) :
    Except ScanErr (Option StructureRuleList) :=
  if use_rule ≠ "" then
    (build_active_entry_backlog_pure [use_rule] structure_rules).map some
  else .ok none

/-- Modelled from the spec: _handle_if_exists as invoked by the diff scan
(missing module): the if_exists children of the matched entry. -/
def handle_if_exists_diff (backlog_entry : RepoEntry) : StructureRuleList :=
  backlog_entry.if_exists

/-- The Python expression a or b for the diff scan's backlog rebuild: a
non-empty use_rule backlog wins, otherwise (None or empty list are both
falsy) the if_exists entries are used. -/
def pyOrBacklog (a : Option StructureRuleList) (b : StructureRuleList) :
    StructureRuleList :=
  match a with
  | some l => if l.isEmpty then b else l
  | none => b

/-- The segment loop of _check_path_in_backlog from
repo_structure_diff_scan.py: skip ends the whole check with no issue; a
matcher failure yields its issue; a directory match rebuilds the backlog
from the matched entry before the next segment. -/
def check_path_in_backlog_loop (config : Configuration) (flags : Flags) :
    List (String × String × Bool) → StructureRuleList →
    Except ScanErr (Option ScanIssue)
  | [], _ => .ok none
  | (rel_dir, entry_name, is_dir) :: rest, backlog =>
    if skip_entry ⟨entry_name, rel_dir, is_dir, false⟩ config.directory_map
        config.configuration_file_name none flags then
      .ok none
    else
      let mr := get_matching_item_index_safe backlog entry_name is_dir
      if !mr.success then .ok mr.issue
      else if is_dir then
        let bm := backlog.getD (mr.index.getD 0) default
        match handle_use_rule_diff bm.use_rule config.structure_rules with
        | .error e => .error e
        | .ok o =>
          check_path_in_backlog_loop config flags rest
            (pyOrBacklog o (handle_if_exists_diff bm))
      else check_path_in_backlog_loop config flags rest backlog

/-- _get_corresponding_map_dir from check_path: the last (hence longest)
directory prefix of the path that is a directory-map key, defaulting to the
root key. -/
def get_corresponding_map_dir (config : Configuration) (path : String) :
    String :=
  (incremental_path_split path).foldl
    (fun map_dir t =>
      if t.2.2 && (config.directory_map.lookup
          (rel_dir_to_map_dir (pyJoin t.1 t.2.1))).isSome then
        rel_dir_to_map_dir (pyJoin t.1 t.2.1)
      else map_dir)
    "/"

/-- The segment walk of os.path.relpath: strip the common prefix, then one
parent-directory step per remaining base segment. -/
def relpathSegs : List String → List String → List String
  | ps, [] => ps
  | [], _ :: bs => ".." :: relpathSegs [] bs
  | p :: ps, b :: bs =>
    if p == b then relpathSegs ps bs
    else List.replicate (bs.length + 1) ".." ++ (p :: ps)

/-- Model of os.path.relpath for the normalized relative slash paths used by
check_path (no dot segments, no absolute paths). -/
def pyRelpath (p base : String) : String :=
  let ps := if p = "" then [] else pySplitSlash p
  let bs := if base = "" then [] else pySplitSlash base
  let rs := relpathSegs ps bs
  if rs.isEmpty then "." else pyJoinSlash rs

/-- check_path from repo_structure_diff_scan.py: select the deepest mapped
directory for the path, build its backlog (an empty backlog returns success
immediately), and walk the path relative to that mapping; an issue is
re-labelled with the full path and a message naming the map directory. -/
def check_path (config : Configuration) (flags : Flags) (path : String) :
    Except ScanErr (Option ScanIssue) :=
  let map_dir := get_corresponding_map_dir config path
  match map_dir_to_entry_backlog_pure config.directory_map
      config.structure_rules (map_dir_to_rel_dir map_dir) with
  | .error e => .error e
  | .ok backlog =>
    if backlog.isEmpty then .ok none
    else
      let rel_path := pyRelpath path (map_dir_to_rel_dir map_dir)
      match check_path_in_backlog_loop config flags
          (incremental_path_split rel_path) backlog with
      | .error e => .error e
      | .ok none => .ok none
      | .ok (some issue) =>
        .ok (some
          { code := issue.code
            message :=
              if issue.code == "unspecified_entry" then
                "Unspecified entry " ++ path ++ " found. Map dir: " ++ map_dir
              else if issue.code == "forbidden_entry" then
                "Forbidden entry " ++ path ++ " found. Map dir: " ++ map_dir
              else issue.message
            path := path })

/-- The parsed YAML form of one rule entry before compilation, as consumed
by the template expander and _parse_entry_to_repo_entry: the pattern text
stored under its verb key (p, require, allow or forbid), the optional
required override, the optional use_rule reference, and the nested
if_exists entries. -/
inductive YamlEntry : Type where
  | mk (patternKey : String) (pattern : String) (required : Option Bool)
      (use_rule : String) (if_exists : List YamlEntry) : YamlEntry

/-- The textual placeholder of a template parameter (two braces around the
name on both sides). -/
def placeholder (key : String) : String :=
  "\x7b\x7b" ++ key ++ "\x7d\x7d"

/-- The character loop of str.replace for a non-empty pattern (every
placeholder is non-empty): left-to-right, non-overlapping.  The fuel is the
remaining input length. -/
def replaceChars (pat sub : List Char) : Nat → List Char → List Char
  | 0, s => s
  | _ + 1, [] => []
  | fuel + 1, c :: rest =>
    if pat.isPrefixOf (c :: rest) && !pat.isEmpty then
      sub ++ replaceChars pat sub fuel ((c :: rest).drop pat.length)
    else c :: replaceChars pat sub fuel rest

/-- Model of the Python expression s.replace(pat, sub) for non-empty pat. -/
def pyReplace (s pat sub : String) : String :=
  String.mk (replaceChars pat.toList sub.toList s.toList.length s.toList)

/-- _expand_template_entry from repo_structure_config.py: replace the
placeholder of one parameter key by one substitution value in the pattern
field of every entry, recursively through nested if_exists lists.  The fuel
bounds the nesting depth of the embedding; the entry-list length is
preserved for every fuel. -/
def expand_template_entry (key v : String) : Nat → List YamlEntry →
    List YamlEntry
  | 0, es => es
  | _ + 1, [] => []
  | fuel + 1, .mk k p r u l :: rest =>
    .mk k (pyReplace p (placeholder key) v) r u
        (expand_template_entry key v fuel l) ::
      expand_template_entry key v fuel rest

/-- _max_values_length from _parse_use_template. -/
def max_values_length (expansion_map : List (String × List String)) : Nat :=
  expansion_map.foldl (fun m kv => max m kv.2.length) 0

/-- The inner parameter loop of _expand_template: substitute, for copy i,
every parameter key by its value at index i mod len(values); an empty value
list is a ZeroDivisionError. -/
def substitute_params (tfuel : Nat) (i : Nat) :
    List (String × List String) → List YamlEntry →
    Except ScanErr (List YamlEntry)
  | [], es => .ok es
  | (key, vars) :: rest, es =>
    if vars.length = 0 then .error .zeroDivisionError
    else
      substitute_params tfuel i rest
        (expand_template_entry key (vars.getD (i % vars.length) "") tfuel es)

/-- The copy loop of _expand_template, one iteration per element of
range(n): the template is looked up inside the loop (an unknown name is a
TemplateError), deep-copied, substituted for copy i, and all copies are
concatenated. -/
def expand_template_copies (tfuel : Nat) (use_template : String)
    (expansion_map : List (String × List String))
    (templates_yaml : List (String × List YamlEntry)) :
    List Nat → Except ScanErr (List YamlEntry)
  | [] => .ok []
  | i :: is =>
    match templates_yaml.lookup use_template with
    | none => .error (.templateError use_template)
    | some entries =>
      match substitute_params tfuel i expansion_map entries with
      | .error e => .error e
      | .ok entries' =>
        match expand_template_copies tfuel use_template expansion_map
            templates_yaml is with
        | .ok rest => .ok (entries' ++ rest)
        | .error e => .error e

/-- _expand_template from _parse_use_template: n = max value count over the
parameter map; concatenate the n substituted copies. -/
def expand_template (tfuel : Nat) (use_template : String)
    (expansion_map : List (String × List String))
    (templates_yaml : List (String × List YamlEntry)) :
    Except ScanErr (List YamlEntry) :=
  expand_template_copies tfuel use_template expansion_map templates_yaml
    (List.range (max_values_length expansion_map))

/-- _get_is_required from repo_structure_config.py, on the single-verb-key
YAML model: an explicit required value wins, the require verb means
required, allow and forbid mean not required, and the plain p key defaults
to required. -/
def get_is_required (patternKey : String) (required : Option Bool) : Bool :=
  match required with
  | some b => b
  | none =>
    if patternKey == "require" then true
    else if patternKey == "allow" then false
    else if patternKey == "forbid" then false
    else true

/-- _parse_entry_to_repo_entry from repo_structure_config.py, lifted to
entry lists: a trailing slash marks a directory entry and is stripped from
the pattern; the entry is forbidden exactly when its verb key is forbid.
Regex compilation is abstracted through the compile parameter; the cell id
of a parsed entry is left at zero (identities are assigned by whoever builds
a store).  The fuel bounds the if_exists nesting depth of the embedding. -/
def parse_entry_list (compile : String → (String → Bool)) :
    Nat → List YamlEntry → List RepoEntry
  | 0, _ => []
  | _ + 1, [] => []
  | fuel + 1, .mk k p r u l :: rest =>
    let is_dir := pyEndsWith p "/"
    let p' := if is_dir then String.mk p.toList.dropLast else p
    .mk p' (compile p') is_dir (get_is_required k r) (k == "forbid") u
        (parse_entry_list compile fuel l) 0 ::
      parse_entry_list compile fuel rest

/-- The deterministic name of a template-generated rule, from the owning
directory and the template name. -/
def template_rule_name (directory use_template : String) : String :=
  "__template_rule_" ++ map_dir_to_rel_dir directory ++ "_" ++ use_template

/-- Python dict assignment d[k] = v on the association-list model. -/
def dictSet (m : StructureRuleMap) (k : String) (v : StructureRuleList) :
    StructureRuleMap :=
  if (m.lookup k).isSome then
    m.map fun kv => if kv.1 == k then (k, v) else kv
  else m ++ [(k, v)]

/-- directory_map[directory].append(name) on the association-list model. -/
def dmAppendRule (m : DirectoryMap) (d name : String) : DirectoryMap :=
  m.map fun kv => if kv.1 == d then (kv.1, kv.2 ++ [name]) else kv

/-- _parse_use_template from repo_structure_config.py: expand the template
bound to a directory-map entry, parse the expanded entries, store them as
one synthetic structure rule under the deterministic name, and append that
name to the rule list of the owning directory. -/
def parse_use_template (compile : String → (String → Bool)) (tfuel : Nat)
    (directory use_template : String)
    (expansion_map : List (String × List String))
    (templates_yaml : List (String × List YamlEntry))
    (config : Configuration) : Except ScanErr Configuration :=
  match expand_template tfuel use_template expansion_map templates_yaml with
  | .error e => .error e
  | .ok structure_rules_yaml =>
    let rule_list := parse_entry_list compile tfuel structure_rules_yaml
    let name := template_rule_name directory use_template
    .ok { config with
      structure_rules := dictSet config.structure_rules name rule_list
      directory_map := dmAppendRule config.directory_map directory name }

/-- _validate_use_rule_only_recursive from repo_structure_config.py: raise
UseRuleError at the first entry (of any rule's entry list) whose use_rule is
non-empty and differs from the name of the rule it is defined under. -/
def validate_use_rule_only_recursive : StructureRuleMap → Except ScanErr Unit
  | [] => .ok ()
  | (rule_key, entries) :: rest =>
    match entries.find? (fun e => e.use_rule != "" && e.use_rule != rule_key) with
    | some e => .error (.useRuleError e.use_rule e.pattern)
    | none => validate_use_rule_only_recursive rest

/- Sample configurations, trees and entries used as concrete inputs by the
witnesses and counterexamples below.  The fullmatch predicates are the
literal-equality semantics of the corresponding regular expressions. -/

def sampleReadme : RepoEntry :=
  .mk "README" (fun s => s == "README.md") false true false "" [] 0

def sampleLicense : RepoEntry :=
  .mk "LICENSE" (fun s => s == "LICENSE") false false false "" [] 1

def sampleForbCmake : RepoEntry :=
  .mk "CMakeLists" (fun s => s == "CMakeLists.txt") false false true "" [] 0

def sampleReqCmake : RepoEntry :=
  .mk "CMakeLists2" (fun s => s == "CMakeLists.txt") false true false "" [] 1

def cfgTrivial : Configuration := ⟨[], [], ""⟩

/-- One optional directory rule docs/ mapped at the root. -/
def cfgDocs : Configuration :=
  ⟨[("r", [.mk "docs" (fun s => s == "docs") true false false "" [] 0])],
   [("/", ["r"])], ""⟩

def treeDocs : FSNode := .dir [("docs", false, .dir [])]

/-- A required-free rule mapped both at the root and at a directory that
does not exist in the empty tree. -/
def cfgTwoMaps : Configuration :=
  ⟨[("r0", [])], [("/", ["r0"]), ("/sub/", ["r0"])], ""⟩

def cfgRootReadme : Configuration :=
  ⟨[("base", [sampleReadme])], [("/", ["base"])], ""⟩

def cfgIgnoreSub : Configuration :=
  ⟨[("base", [sampleReadme])], [("/", ["base"]), ("/python/", ["ignore"])], ""⟩

def tmplAB : List YamlEntry :=
  [.mk "require" "\x7b\x7ba\x7d\x7d_\x7b\x7bb\x7d\x7d" none "" []]

def paramsAB : List (String × List String) := [("a", ["x", "y"]), ("b", ["1"])]

/-- A fixed abstract regex compiler for sample parses. -/
def compile0 : String → (String → Bool) := fun p s => s == p

/-- The configuration produced by expanding tmplAB with paramsAB at the root
of the trivial configuration. -/
def cfg5result : Configuration :=
  { structure_rules :=
      dictSet cfgTrivial.structure_rules (template_rule_name "/" "t")
        (parse_entry_list compile0 9
          [.mk "require" "x_1" none "" [], .mk "require" "y_1" none "" []])
    directory_map :=
      dmAppendRule cfgTrivial.directory_map "/" (template_rule_name "/" "t")
    configuration_file_name := "" }

/-- A rule whose single entry carries a non-recursive use_rule reference. -/
def badUseRules : StructureRuleMap :=
  [("r", [.mk "d" (fun s => s == "d") true false false "other" [] 0])]

def goodUseRules : StructureRuleMap :=
  [("r", [.mk "d" (fun s => s == "d") true false false "r" [] 0]),
   ("s", [.mk "x" (fun s => s == "x") false true false "" [] 1])]

/- Theorems. -/

theorem mem_matching_indices (backlog : StructureRuleList) (p : String) (d : Bool)
    (i : Nat) : i ∈ matching_indices backlog p d ↔ MatchesAt backlog p d i := by
  simp [matching_indices, MatchesAt, List.mem_filter, List.mem_range,
    and_assoc]

theorem matching_indices_pairwise (backlog : StructureRuleList) (p : String)
    (d : Bool) : (matching_indices backlog p d).Pairwise (· < ·) :=
  List.Pairwise.filter _ (List.pairwise_lt_range _)

theorem matching_indices_eq_nil_iff (backlog : StructureRuleList) (p : String)
    (d : Bool) :
    matching_indices backlog p d = [] ↔ ∀ i, ¬MatchesAt backlog p d i := by
  constructor
  · intro h i hm
    have := (mem_matching_indices backlog p d i).mpr hm
    simp [h] at this
  · intro h
    cases hm : matching_indices backlog p d with
    | nil => rfl
    | cons a t =>
      exact absurd ((mem_matching_indices backlog p d a).mp (by simp [hm]))
        (h a)

/-- Claim C1: for every backlog and every path segment with a directory
flag, _get_matching_item_index returns exactly the indices of the backlog
entries whose compiled pattern fullmatches the whole segment and whose
is_dir flag equals the segment's directory flag, in backlog order
(strictly increasing indices); and it raises UnspecifiedEntryError, with no
indices, exactly when no entry matches. -/
theorem C1_matcher_returns_exactly_matching_indices
    (backlog : StructureRuleList) (p : String) (d : Bool) :
    (∀ l, get_matching_item_index backlog p d = .ok l →
        l ≠ [] ∧ l.Pairwise (· < ·) ∧
        ∀ i, i ∈ l ↔ MatchesAt backlog p d i) ∧
    (get_matching_item_index backlog p d =
        .error (.unspecified (if d then p ++ "/" else p)) ↔
      ∀ i, ¬MatchesAt backlog p d i) := by
  unfold get_matching_item_index
  by_cases h : matching_indices backlog p d = []
  · rw [h]
    simp only [List.length_nil]
    constructor
    · intro l hl
      simp at hl
    · simp [matching_indices_eq_nil_iff backlog p d] at h
      simp [h]
  · have hlen : ((matching_indices backlog p d).length != 0) = true := by
      simpa [List.length_eq_zero] using h
    simp only [hlen, if_true]
    constructor
    · intro l hl
      have : l = matching_indices backlog p d := by
        simpa using hl.symm
      subst this
      exact ⟨h, matching_indices_pairwise backlog p d,
        fun i => mem_matching_indices backlog p d i⟩
    · constructor
      · intro hcontra
        simp at hcontra
      · intro hall
        exact absurd ((matching_indices_eq_nil_iff backlog p d).mpr hall) h

/-- Witness for C1 at a concrete two-entry backlog: the matcher returns
index 0 for README.md and that index satisfies the specification. -/
theorem C1_witness :
    get_matching_item_index [sampleReadme, sampleLicense] "README.md" false =
      .ok [0] ∧
    (0 ∈ [0] ↔ MatchesAt [sampleReadme, sampleLicense] "README.md" false 0) := by
  refine ⟨by decide, ?_⟩
  exact ((C1_matcher_returns_exactly_matching_indices
    [sampleReadme, sampleLicense] "README.md" false).1 [0] (by decide)).2.2 0

theorem get_matching_item_index_lib_forbidden (backlog : StructureRuleList)
    (p : String) (d : Bool)
    (h : ∃ i, MatchesAt backlog p d i ∧
      (backlog.getD i default).is_forbidden = true) :
    get_matching_item_index_lib backlog p d = .error (.forbidden p) := by
  obtain ⟨i, hi, hf⟩ := h
  have hany : ((matching_indices backlog p d).any
      fun i => (backlog.getD i default).is_forbidden) = true :=
    List.any_eq_true.mpr ⟨i, (mem_matching_indices backlog p d i).mpr hi, hf⟩
  unfold get_matching_item_index_lib
  rw [if_pos hany]

/-- Claim C2: a non-skipped filesystem entry matching at least one Forbidden
entry of the backlog makes the scan raise ForbiddenEntryError, even when the
same segment also matches Required or Optional entries of the same backlog;
the error comes out of the matcher itself, which is invoked before the
increment loop, so no matched entry's count cell is touched. -/
theorem C2_forbidden_entry_raises (config : Configuration)
    (git_ignore : Option (String → Bool)) (flags : Flags) (fuel : Nat)
    (rel_dir name : String) (sym : Bool) (node : FSNode)
    (rest : List (String × Bool × FSNode)) (backlog : StructureRuleList)
    (σ : CountStore)
    (hskip : skip_entry ⟨name, rel_dir, node.isDir, sym⟩ config.directory_map
        config.configuration_file_name git_ignore flags = false)
    (hforb : ∃ i, MatchesAt backlog name node.isDir i ∧
        (backlog.getD i default).is_forbidden = true) :
    get_matching_item_index_lib backlog name node.isDir =
        .error (.forbidden name) ∧
    scan_children config git_ignore flags (fuel + 1) rel_dir
        ((name, sym, node) :: rest) backlog σ =
      .error (.forbidden (rel_dir ++ "/" ++ name)) := by
  have hm := get_matching_item_index_lib_forbidden backlog name node.isDir hforb
  refine ⟨hm, ?_⟩
  rw [scan_children]
  simp [hskip, hm]

/-- Witness for C2: CMakeLists.txt matches both a Required entry and a
Forbidden entry of the same backlog; the scan of a directory containing it
raises ForbiddenEntryError. -/
theorem C2_witness :
    get_matching_item_index_lib [sampleReqCmake, sampleForbCmake]
        "CMakeLists.txt" false = .error (.forbidden "CMakeLists.txt") ∧
    scan_children cfgTrivial none {} 1 ""
        [("CMakeLists.txt", false, .file)] [sampleReqCmake, sampleForbCmake]
        [0, 0] =
      .error (.forbidden "/CMakeLists.txt") :=
  C2_forbidden_entry_raises cfgTrivial none {} 0 "" "CMakeLists.txt" false
    .file [] [sampleReqCmake, sampleForbCmake] [0, 0] (by decide)
    ⟨1, by decide, by decide⟩

theorem fail_if_required_entries_missing_ok_iff (σ : CountStore)
    (backlog : StructureRuleList) :
    fail_if_required_entries_missing σ backlog = .ok () ↔
      ∀ e ∈ backlog, ¬(e.is_required = true ∧ storeRead σ e.cid = 0) := by
  unfold fail_if_required_entries_missing
  by_cases h : missing_required σ backlog = []
  · simp only [h, List.isEmpty_nil, if_true, true_iff]
    intro e he ⟨hr, hc⟩
    have : e ∈ missing_required σ backlog := by
      simp [missing_required, List.mem_filter, he, hr, hc]
    simp [h] at this
  · have : (missing_required σ backlog).isEmpty = false := by
      simpa [List.isEmpty_iff] using h
    simp only [this, Bool.false_eq_true, if_false]
    constructor
    · intro hcontra
      simp at hcontra
    · intro hall
      exfalso
      apply h
      rw [List.eq_nil_iff_forall_not_mem]
      intro e he
      have := List.mem_filter.mp he
      exact hall e this.1 (by simpa using this.2)

/-- Claim C3: after a backlog's scope finishes, the missing-required check
raises MissingRequiredEntriesError exactly when the backlog contains a
required entry whose count is zero, the error is of that shape, and it names
the pattern of every such missing entry, separated into files and
directories. -/
theorem C3_missing_required_error_iff (σ : CountStore)
    (backlog : StructureRuleList) :
    ((∃ err, fail_if_required_entries_missing σ backlog = .error err) ↔
      ∃ e ∈ backlog, e.is_required = true ∧ storeRead σ e.cid = 0) ∧
    (∀ files dirs,
      fail_if_required_entries_missing σ backlog =
          .error (.missingRequired files dirs) →
        ∀ e ∈ backlog, e.is_required = true → storeRead σ e.cid = 0 →
          (e.is_dir = false → e.pattern ∈ files) ∧
          (e.is_dir = true → e.pattern ∈ dirs)) ∧
    (∀ err, fail_if_required_entries_missing σ backlog = .error err →
      ∃ files dirs, err = .missingRequired files dirs) := by
  refine ⟨?_, ?_, ?_⟩
  · constructor
    · rintro ⟨err, herr⟩
      by_contra hno
      push_neg at hno
      have hok := (fail_if_required_entries_missing_ok_iff σ backlog).mpr
        (by intro e he ⟨h1, h2⟩; exact absurd h2 (hno e he h1))
      rw [hok] at herr
      cases herr
    · rintro ⟨e, he, hr, hc⟩
      cases herr : fail_if_required_entries_missing σ backlog with
      | error err => exact ⟨err, rfl⟩
      | ok u =>
        cases u
        exact absurd ⟨hr, hc⟩
          ((fail_if_required_entries_missing_ok_iff σ backlog).mp herr e he)
  · intro files dirs herr e he hr hc
    have hmem : e ∈ missing_required σ backlog := by
      simp [missing_required, List.mem_filter, he, hr, hc]
    unfold fail_if_required_entries_missing at herr
    by_cases h : (missing_required σ backlog).isEmpty
    · simp [h] at herr
    · simp only [h, Bool.false_eq_true, if_false, Except.error.injEq,
        ScanErr.missingRequired.injEq] at herr
      obtain ⟨hfiles, hdirs⟩ := herr
      constructor
      · intro hdir
        rw [← hfiles]
        exact List.mem_map.mpr ⟨e, List.mem_filter.mpr ⟨hmem, by simp [hdir]⟩, rfl⟩
      · intro hdir
        rw [← hdirs]
        exact List.mem_map.mpr ⟨e, List.mem_filter.mpr ⟨hmem, by simp [hdir]⟩, rfl⟩
  · intro err herr
    unfold fail_if_required_entries_missing at herr
    by_cases h : (missing_required σ backlog).isEmpty
    · simp [h] at herr
    · simp only [h, Bool.false_eq_true, if_false, Except.error.injEq] at herr
      exact ⟨_, _, herr.symm⟩

/-- Witness for C3 at a concrete backlog: the unmatched required README
entry produces the error, and the error names README among the files. -/
theorem C3_witness :
    (∃ err, fail_if_required_entries_missing [0] [sampleReadme] = .error err) ∧
    "README" ∈ ["README"] :=
  ⟨(C3_missing_required_error_iff [0] [sampleReadme]).1.mpr
    ⟨sampleReadme, List.mem_singleton.mpr rfl, rfl, rfl⟩,
   List.mem_singleton.mpr rfl⟩

theorem storeRead_append (σ τ : CountStore) (i : Nat) (h : i < σ.length) :
    storeRead (σ ++ τ) i = storeRead σ i := by
  unfold storeRead
  exact List.getD_append σ τ 0 i h

theorem storeRead_append_one (σ : CountStore) (v : Nat) (c : Nat) :
    storeRead (σ ++ [v]) c =
      if c < σ.length then storeRead σ c
      else if c = σ.length then v else 0 := by
  rcases Nat.lt_trichotomy c σ.length with h | h | h
  · rw [if_pos h]
    exact storeRead_append σ [v] c h
  · subst h
    simp [storeRead, List.getD, List.getElem?_append_right (Nat.le_refl _)]
  · rw [if_neg (by omega), if_neg (by omega)]
    have hn : (σ ++ [v]).length ≤ c := by
      simp
      omega
    simp [storeRead, List.getD, List.getElem?_eq_none hn]

theorem storeRead_set_ne (σ : CountStore) (c v i : Nat) (h : i ≠ c) :
    storeRead (storeWrite σ c v) i = storeRead σ i := by
  simp [storeRead, storeWrite, List.getD, List.getElem?_set_ne (Ne.symm h)]

theorem length_storeWrite (σ : CountStore) (c v : Nat) :
    (storeWrite σ c v).length = σ.length := List.length_set σ c v

theorem withCid_cid (e : RepoEntry) (c : Nat) : (e.withCid c).cid = c := by
  cases e; rfl

/-- allocCopies grows the store by one cell per entry, preserves every
pre-existing cell, and hands out cell ids from the fresh region only. -/
theorem allocCopies_frame (entries : List RepoEntry) (σ : CountStore) :
    (allocCopies entries σ).2.length = σ.length + entries.length ∧
    (∀ i, i < σ.length →
      storeRead (allocCopies entries σ).2 i = storeRead σ i) ∧
    (∀ e' ∈ (allocCopies entries σ).1,
      σ.length ≤ e'.cid ∧ e'.cid < (allocCopies entries σ).2.length) := by
  induction entries generalizing σ with
  | nil => simp [allocCopies]
  | cons e rest ih =>
    obtain ⟨ihlen, ihread, ihcid⟩ := ih (σ ++ [storeRead σ e.cid])
    have hlen : (allocCopies (e :: rest) σ).2.length =
        σ.length + (e :: rest).length := by
      simp only [allocCopies]
      rw [ihlen]
      simp
      omega
    refine ⟨hlen, ?_, ?_⟩
    · intro i hi
      simp only [allocCopies]
      rw [ihread i (by simp; omega)]
      exact storeRead_append σ [storeRead σ e.cid] i hi
    · intro e' he'
      simp only [allocCopies, List.mem_cons] at he'
      rcases he' with h | h
      · subst h
        rw [withCid_cid, hlen]
        simp
      · have := ihcid e' h
        simp only [allocCopies]
        simp at this ⊢
        omega

/-- allocCopies keeps an all-zero store all zero (the fresh cells are
initialized by copying source cells). -/
theorem allocCopies_zero (entries : List RepoEntry) (σ : CountStore)
    (hz : ∀ c, storeRead σ c = 0) :
    ∀ c, storeRead (allocCopies entries σ).2 c = 0 := by
  induction entries generalizing σ with
  | nil => simpa [allocCopies]
  | cons e rest ih =>
    intro c
    simp only [allocCopies]
    refine ih (σ ++ [storeRead σ e.cid]) ?_ c
    intro c'
    rw [storeRead_append_one]
    rcases Nat.lt_trichotomy c' σ.length with h | h | h
    · rw [if_pos h]; exact hz c'
    · rw [if_neg (by omega), if_pos h]; exact hz e.cid
    · rw [if_neg (by omega), if_neg (by omega)]

/-- The copies of allocCopies are withCid copies of the source entries, in
order (every static field is shared). -/
theorem allocCopies_copies (entries : List RepoEntry) (σ : CountStore) :
    ∃ cids, (allocCopies entries σ).1 = entries.zipWith RepoEntry.withCid cids ∧
      cids.length = entries.length := by
  induction entries generalizing σ with
  | nil => exact ⟨[], by simp [allocCopies], rfl⟩
  | cons e rest ih =>
    obtain ⟨cids, heq, hlen⟩ := ih (σ ++ [storeRead σ e.cid])
    exact ⟨σ.length :: cids, by simp [allocCopies, heq], by simp [hlen]⟩

theorem withCid_is_required (e : RepoEntry) (c : Nat) :
    (e.withCid c).is_required = e.is_required := by
  cases e; rfl

theorem withCid_is_dir (e : RepoEntry) (c : Nat) :
    (e.withCid c).is_dir = e.is_dir := by
  cases e; rfl

theorem withCid_pattern (e : RepoEntry) (c : Nat) :
    (e.withCid c).pattern = e.pattern := by
  cases e; rfl

/-- The copies contain a required entry exactly when the sources do. -/
theorem allocCopies_required_iff (entries : List RepoEntry) (σ : CountStore) :
    (∃ e' ∈ (allocCopies entries σ).1, e'.is_required = true) ↔
      ∃ e ∈ entries, e.is_required = true := by
  obtain ⟨cids, heq, hlen⟩ := allocCopies_copies entries σ
  rw [heq]
  constructor
  · rintro ⟨e', he', hr⟩
    rw [List.mem_iff_getElem] at he'
    obtain ⟨k, hk, hget⟩ := he'
    rw [List.getElem_zipWith] at hget
    have hk2 : k < entries.length := by simp at hk; omega
    refine ⟨entries[k], List.getElem_mem _, ?_⟩
    rw [← hget] at hr
    rwa [withCid_is_required] at hr
  · rintro ⟨e, he, hr⟩
    rw [List.mem_iff_getElem] at he
    obtain ⟨k, hk, hget⟩ := he
    have hk2 : k < (entries.zipWith RepoEntry.withCid cids).length := by
      simp
      omega
    refine ⟨(entries.zipWith RepoEntry.withCid cids)[k], List.getElem_mem _, ?_⟩
    rw [List.getElem_zipWith, hget, withCid_is_required]
    subst hget
    exact hr

/-- Inversion of one successful step of build_active_entry_backlog for a
non-ignore rule name. -/
theorem build_active_entry_backlog_cons_ok (rule : String) (rest : List String)
    (rules : StructureRuleMap) (σ : CountStore) (b : StructureRuleList)
    (σ' : CountStore) (hig : (rule == "ignore") = false)
    (h : build_active_entry_backlog (rule :: rest) rules σ = .ok (b, σ')) :
    ∃ entries tail, rules.lookup rule = some entries ∧
      build_active_entry_backlog rest rules (allocCopies entries σ).2 =
        .ok (tail, σ') ∧
      b = (allocCopies entries σ).1 ++ tail := by
  unfold build_active_entry_backlog at h
  rw [if_neg (by simp [hig])] at h
  split at h
  · cases h
  · next entries heq =>
    split at h
    · next tail σ2 hrec =>
      simp only [Except.ok.injEq, Prod.mk.injEq] at h
      obtain ⟨hb, hσ⟩ := h
      subst hσ
      exact ⟨entries, tail, heq, hrec, hb.symm⟩
    · cases h

/-- Inversion of build_active_entry_backlog at an ignore rule name. -/
theorem build_active_entry_backlog_cons_ignore (rest : List String)
    (rules : StructureRuleMap) (σ : CountStore) :
    build_active_entry_backlog ("ignore" :: rest) rules σ =
      build_active_entry_backlog rest rules σ := by
  rw [build_active_entry_backlog]
  rw [if_pos (by simp)]

/-- build_active_entry_backlog frame: on success the store only grows,
every pre-existing cell keeps its value, and every backlog entry's cell id
lies in the freshly allocated region. -/
theorem build_active_entry_backlog_frame (names : List String)
    (rules : StructureRuleMap) :
    ∀ σ b σ', build_active_entry_backlog names rules σ = .ok (b, σ') →
      σ.length ≤ σ'.length ∧
      (∀ i, i < σ.length → storeRead σ' i = storeRead σ i) ∧
      (∀ e ∈ b, σ.length ≤ e.cid ∧ e.cid < σ'.length) := by
  induction names with
  | nil =>
    intro σ b σ' h
    simp [build_active_entry_backlog] at h
    obtain ⟨hb, hσ⟩ := h
    subst hb
    subst hσ
    simp
  | cons rule rest ih =>
    intro σ b σ' h
    by_cases hig : (rule == "ignore") = true
    · have hr : rule = "ignore" := by simpa using hig
      subst hr
      rw [build_active_entry_backlog_cons_ignore] at h
      exact ih σ b σ' h
    · obtain ⟨entries, tail, hlk, hrec, hb⟩ :=
        build_active_entry_backlog_cons_ok rule rest rules σ b σ'
          (by simpa using hig) h
      subst hb
      obtain ⟨alen, aread, acid⟩ := allocCopies_frame entries σ
      obtain ⟨rlen, rread, rcid⟩ := ih _ _ _ hrec
      refine ⟨by omega, ?_, ?_⟩
      · intro i hi
        rw [rread i (by omega), aread i hi]
      · intro e he
        rcases List.mem_append.mp he with hmem | hmem
        · have := acid e hmem
          omega
        · have := rcid e hmem
          omega

/-- build_active_entry_backlog keeps an all-zero store all zero. -/
theorem build_active_entry_backlog_zero (names : List String)
    (rules : StructureRuleMap) :
    ∀ σ b σ', (∀ c, storeRead σ c = 0) →
      build_active_entry_backlog names rules σ = .ok (b, σ') →
      ∀ c, storeRead σ' c = 0 := by
  induction names with
  | nil =>
    intro σ b σ' hz h
    simp [build_active_entry_backlog] at h
    obtain ⟨_, hσ⟩ := h
    subst hσ
    exact hz
  | cons rule rest ih =>
    intro σ b σ' hz h
    by_cases hig : (rule == "ignore") = true
    · have hr : rule = "ignore" := by simpa using hig
      subst hr
      rw [build_active_entry_backlog_cons_ignore] at h
      exact ih σ b σ' hz h
    · obtain ⟨entries, tail, hlk, hrec, hb⟩ :=
        build_active_entry_backlog_cons_ok rule rest rules σ b σ'
          (by simpa using hig) h
      exact ih _ _ _ (allocCopies_zero entries σ hz) hrec

/-- build_active_entry_backlog succeeds when every named rule exists or is
the builtin ignore. -/
theorem build_active_entry_backlog_success (names : List String)
    (rules : StructureRuleMap)
    (hvalid : ∀ r ∈ names, r = "ignore" ∨ (rules.lookup r).isSome) :
    ∀ σ, ∃ b σ', build_active_entry_backlog names rules σ = .ok (b, σ') := by
  induction names with
  | nil =>
    intro σ
    exact ⟨[], σ, by simp [build_active_entry_backlog]⟩
  | cons rule rest ih =>
    intro σ
    have hrest : ∀ r ∈ rest, r = "ignore" ∨ (rules.lookup r).isSome :=
      fun r hr => hvalid r (List.mem_cons_of_mem _ hr)
    by_cases hig : (rule == "ignore") = true
    · have hr : rule = "ignore" := by simpa using hig
      subst hr
      obtain ⟨b, σ', hb⟩ := ih hrest σ
      exact ⟨b, σ', by rw [build_active_entry_backlog_cons_ignore]; exact hb⟩
    · rcases hvalid rule (List.mem_cons_self _ _) with h | h
      · exact absurd (by simp [h]) hig
      · obtain ⟨entries, hlk⟩ := Option.isSome_iff_exists.mp h
        obtain ⟨tail, σ2, hrec⟩ := ih hrest (allocCopies entries σ).2
        refine ⟨(allocCopies entries σ).1 ++ tail, σ2, ?_⟩
        rw [build_active_entry_backlog]
        rw [if_neg hig]
        split
        · next heq => rw [hlk] at heq; cases heq
        · next entries2 heq =>
          rw [hlk] at heq
          cases heq
          split
          · next tail2 σ22 hrec2 =>
            rw [hrec] at hrec2
            cases hrec2
            rfl
          · next e herr => rw [hrec] at herr; cases herr

/-- The backlog built for a rule-name list has a required entry exactly when
some named non-ignore rule exists and has a required entry. -/
theorem build_active_entry_backlog_required_iff (names : List String)
    (rules : StructureRuleMap) :
    ∀ σ b σ', build_active_entry_backlog names rules σ = .ok (b, σ') →
      ((∃ e ∈ b, e.is_required = true) ↔
        ∃ r ∈ names, r ≠ "ignore" ∧ ∃ entries,
          rules.lookup r = some entries ∧ ∃ e ∈ entries, e.is_required = true) := by
  induction names with
  | nil =>
    intro σ b σ' h
    simp [build_active_entry_backlog] at h
    obtain ⟨hb, _⟩ := h
    subst hb
    simp
  | cons rule rest ih =>
    intro σ b σ' h
    by_cases hig : (rule == "ignore") = true
    · have hr : rule = "ignore" := by simpa using hig
      subst hr
      rw [build_active_entry_backlog_cons_ignore] at h
      rw [ih σ b σ' h]
      constructor
      · rintro ⟨r, hr, hne, rest'⟩
        exact ⟨r, List.mem_cons_of_mem _ hr, hne, rest'⟩
      · rintro ⟨r, hr, hne, rest'⟩
        rcases List.mem_cons.mp hr with heq | hmem
        · exact absurd heq hne
        · exact ⟨r, hmem, hne, rest'⟩
    · obtain ⟨entries, tail, hlk, hrec, hb⟩ :=
        build_active_entry_backlog_cons_ok rule rest rules σ b σ'
          (by simpa using hig) h
      subst hb
      have hne : rule ≠ "ignore" := by simpa using hig
      constructor
      · rintro ⟨e, he, hr⟩
        rcases List.mem_append.mp he with hmem | hmem
        · have := (allocCopies_required_iff entries σ).mp ⟨e, hmem, hr⟩
          obtain ⟨e0, he0, hr0⟩ := this
          exact ⟨rule, List.mem_cons_self _ _, hne, entries, hlk,
            e0, he0, hr0⟩
        · have := (ih _ _ _ hrec).mp ⟨e, hmem, hr⟩
          obtain ⟨r, hrm, hrne, rest'⟩ := this
          exact ⟨r, List.mem_cons_of_mem _ hrm, hrne, rest'⟩
      · rintro ⟨r, hrm, hrne, entries', hlk', e, he, hr⟩
        rcases List.mem_cons.mp hrm with heq | hmem
        · subst heq
          rw [hlk] at hlk'
          cases hlk'
          obtain ⟨e', he', hr'⟩ :=
            (allocCopies_required_iff entries σ).mpr ⟨e, he, hr⟩
          exact ⟨e', List.mem_append_left _ he', hr'⟩
        · obtain ⟨e', he', hr'⟩ := (ih _ _ _ hrec).mpr
            ⟨r, hmem, hrne, entries', hlk', e, he, hr⟩
          exact ⟨e', List.mem_append_right _ he', hr'⟩

theorem get_matching_item_index_ok_eq (backlog : StructureRuleList)
    (p : String) (d : Bool) (l : List Nat)
    (h : get_matching_item_index backlog p d = .ok l) :
    l = matching_indices backlog p d := by
  unfold get_matching_item_index at h
  by_cases hlen : ((matching_indices backlog p d).length != 0) = true
  · simp only [hlen, if_true] at h
    injection h with h1
    exact h1.symm
  · rw [Bool.not_eq_true] at hlen
    simp only [hlen, Bool.false_eq_true, if_false] at h
    cases h

theorem get_matching_item_index_lib_ok_eq (backlog : StructureRuleList)
    (p : String) (d : Bool) (l : List Nat)
    (h : get_matching_item_index_lib backlog p d = .ok l) :
    l = matching_indices backlog p d := by
  unfold get_matching_item_index_lib at h
  by_cases hany : ((matching_indices backlog p d).any
      fun i => (backlog.getD i default).is_forbidden) = true
  · rw [if_pos hany] at h
    cases h
  · rw [if_neg hany] at h
    exact get_matching_item_index_ok_eq backlog p d l h

theorem get_matching_item_index_lib_ok_bounds (backlog : StructureRuleList)
    (p : String) (d : Bool) (l : List Nat)
    (h : get_matching_item_index_lib backlog p d = .ok l) :
    ∀ i ∈ l, i < backlog.length := by
  intro i hi
  rw [get_matching_item_index_lib_ok_eq backlog p d l h] at hi
  exact ((mem_matching_indices backlog p d i).mp hi).1

theorem handle_use_rule_frame (u : String) (rules : StructureRuleMap)
    (σ : CountStore) (b : StructureRuleList) (σ' : CountStore)
    (h : handle_use_rule u rules σ = .ok (b, σ')) :
    σ.length ≤ σ'.length ∧
    (∀ i, i < σ.length → storeRead σ' i = storeRead σ i) ∧
    (∀ e ∈ b, σ.length ≤ e.cid ∧ e.cid < σ'.length) := by
  unfold handle_use_rule at h
  by_cases hu : u ≠ ""
  · rw [if_pos hu] at h
    exact build_active_entry_backlog_frame [u] rules σ b σ' h
  · rw [if_neg hu] at h
    simp only [Except.ok.injEq, Prod.mk.injEq] at h
    obtain ⟨hb, hσ⟩ := h
    subst hb
    subst hσ
    simp

/-- One scan step frame property, by induction on the fuel: every store cell
with an id below N keeps its value through scan_children and scan_matches
provided every backlog entry's cell id is at least N (as holds for every
backlog the scan ever builds, since backlogs consist of freshly allocated
copies), and the store only grows. -/
theorem scan_frame (config : Configuration) (gi : Option (String → Bool))
    (flags : Flags) (N : Nat) :
    ∀ fuel : Nat,
      (∀ rel_dir children backlog σ σ',
        N ≤ σ.length →
        (∀ e ∈ backlog, N ≤ e.cid ∧ e.cid < σ.length) →
        scan_children config gi flags fuel rel_dir children backlog σ = .ok σ' →
        σ.length ≤ σ'.length ∧ ∀ i, i < N → storeRead σ' i = storeRead σ i) ∧
      (∀ rel_dir name node idxs backlog σ σ',
        N ≤ σ.length →
        (∀ e ∈ backlog, N ≤ e.cid ∧ e.cid < σ.length) →
        (∀ idx ∈ idxs, idx < backlog.length) →
        scan_matches config gi flags fuel rel_dir name node idxs backlog σ =
          .ok σ' →
        σ.length ≤ σ'.length ∧ ∀ i, i < N → storeRead σ' i = storeRead σ i) := by
  intro fuel
  induction fuel with
  | zero =>
    constructor
    · intro rel_dir children backlog σ σ' _ _ h
      rw [scan_children] at h
      cases h
    · intro rel_dir name node idxs backlog σ σ' _ _ _ h
      rw [scan_matches.eq_def] at h
      dsimp only at h
      cases h
  | succ fuel ih =>
    obtain ⟨ihc, ihm⟩ := ih
    constructor
    · intro rel_dir children backlog σ σ' hN hb h
      cases children with
      | nil =>
        rw [scan_children] at h
        injection h with h1
        subst h1
        exact ⟨Nat.le_refl _, fun i _ => rfl⟩
      | cons c rest =>
        obtain ⟨name, sym, node⟩ := c
        rw [scan_children] at h
        by_cases hskip : skip_entry ⟨name, rel_dir, node.isDir, sym⟩
            config.directory_map config.configuration_file_name gi flags = true
        · rw [if_pos hskip] at h
          exact ihc rel_dir rest backlog σ σ' hN hb h
        · rw [if_neg hskip] at h
          split at h
          · cases h
          · cases h
          · next indices hm =>
            split at h
            · cases h
            · next σ1 hsm =>
              have hidx := get_matching_item_index_lib_ok_bounds backlog name
                node.isDir indices hm
              obtain ⟨hl1, hr1⟩ := ihm rel_dir name node indices backlog σ σ1
                hN hb hidx hsm
              obtain ⟨hl2, hr2⟩ := ihc rel_dir rest backlog σ1 σ' (by omega)
                (fun e he => ⟨(hb e he).1, by have := (hb e he).2; omega⟩) h
              exact ⟨by omega, fun i hi => (hr2 i hi).trans (hr1 i hi)⟩
    · intro rel_dir name node idxs backlog σ σ' hN hb hidx h
      cases idxs with
      | nil =>
        rw [scan_matches.eq_def] at h
        dsimp only at h
        injection h with h1
        subst h1
        exact ⟨Nat.le_refl _, fun i _ => rfl⟩
      | cons idx rest =>
        have hidx0 : idx < backlog.length := hidx idx (List.mem_cons_self _ _)
        have hbe : backlog.getD idx default ∈ backlog := by
          rw [List.getD_eq_getElem backlog default hidx0]
          exact List.getElem_mem hidx0
        have hcid := hb _ hbe
        have hσ1len : (storeWrite σ (backlog.getD idx default).cid
            (storeRead σ (backlog.getD idx default).cid + 1)).length =
            σ.length := length_storeWrite σ _ _
        have hσ1read : ∀ i, i < N →
            storeRead (storeWrite σ (backlog.getD idx default).cid
              (storeRead σ (backlog.getD idx default).cid + 1)) i =
            storeRead σ i := by
          intro i hi
          exact storeRead_set_ne σ _ _ i (by omega)
        rw [scan_matches.eq_def] at h
        cases node with
        | file =>
          dsimp only at h
          obtain ⟨hl2, hr2⟩ := ihm rel_dir name .file rest backlog _ σ'
            (by omega) (fun e he => ⟨(hb e he).1, by have := (hb e he).2; omega⟩)
            (fun j hj => hidx j (List.mem_cons_of_mem _ hj)) h
          refine ⟨by omega, fun i hi => ?_⟩
          rw [hr2 i hi, hσ1read i hi]
        | dir children =>
          dsimp only at h
          unfold handle_if_exists at h
          split at h
          · cases h
          · next b1 σ2 hhu =>
            obtain ⟨hl2, hr2, hb1⟩ := handle_use_rule_frame _ _ _ _ _ hhu
            obtain ⟨hl3, hr3, hb2⟩ := allocCopies_frame
              (backlog.getD idx default).if_exists σ2
            split at h
            · cases h
            · next σ4 hsc =>
              have hbnew : ∀ e ∈ b1 ++
                  (allocCopies (backlog.getD idx default).if_exists σ2).1,
                  N ≤ e.cid ∧ e.cid <
                    (allocCopies (backlog.getD idx default).if_exists σ2).2.length := by
                intro e he
                rcases List.mem_append.mp he with hmem | hmem
                · have := hb1 e hmem
                  omega
                · have := hb2 e hmem
                  omega
              obtain ⟨hl4, hr4⟩ := ihc (pyJoin rel_dir name) children _ _ σ4
                (by omega) hbnew hsc
              split at h
              · cases h
              · obtain ⟨hl5, hr5⟩ := ihm rel_dir name (.dir children) rest
                  backlog σ4 σ' (by omega)
                  (fun e he => ⟨(hb e he).1, by have := (hb e he).2; omega⟩)
                  (fun j hj => hidx j (List.mem_cons_of_mem _ hj)) h
                refine ⟨by omega, fun i hi => ?_⟩
                rw [hr5 i hi, hr4 i hi, hr3 i (by omega), hr2 i (by omega),
                  hσ1read i hi]

theorem map_dir_to_entry_backlog_frame (dm : DirectoryMap)
    (rules : StructureRuleMap) (md : String) (σ : CountStore)
    (b : StructureRuleList) (σ' : CountStore)
    (h : map_dir_to_entry_backlog dm rules md σ = .ok (b, σ')) :
    σ.length ≤ σ'.length ∧
    (∀ i, i < σ.length → storeRead σ' i = storeRead σ i) ∧
    (∀ e ∈ b, σ.length ≤ e.cid ∧ e.cid < σ'.length) := by
  unfold map_dir_to_entry_backlog at h
  split at h
  · cases h
  · next use_rules heq =>
    exact build_active_entry_backlog_frame use_rules rules σ b σ' h

theorem process_map_dir_frame (config : Configuration)
    (gi : Option (String → Bool)) (flags : Flags) (tree : FSNode) (fuel : Nat)
    (map_dir : String) (σ σ' : CountStore)
    (h : process_map_dir config gi flags tree fuel map_dir σ = .ok σ') :
    σ.length ≤ σ'.length ∧
    ∀ i, i < σ.length → storeRead σ' i = storeRead σ i := by
  unfold process_map_dir at h
  by_cases hig : (config.directory_map.lookup map_dir == some ["ignore"]) = true
  · rw [if_pos hig] at h
    injection h with h1
    subst h1
    exact ⟨Nat.le_refl _, fun i _ => rfl⟩
  · rw [if_neg hig] at h
    dsimp only at h
    split at h
    · cases h
    · next backlog σ1 hmb =>
      obtain ⟨hl1, hr1, hb1⟩ := map_dir_to_entry_backlog_frame _ _ _ _ _ _ hmb
      split at h
      · cases h
      · next children hcs =>
        split at h
        · cases h
        · next σ2 hsc =>
          obtain ⟨hl2, hr2⟩ := (scan_frame config gi flags σ.length fuel).1
            _ children backlog σ1 σ2 hl1 hb1 hsc
          split at h
          · cases h
          · injection h with h1
            subst h1
            refine ⟨by omega, fun i hi => ?_⟩
            rw [hr2 i hi, hr1 i hi]

theorem process_map_dirs_frame (config : Configuration)
    (gi : Option (String → Bool)) (flags : Flags) (tree : FSNode)
    (fuel : Nat) :
    ∀ dirs σ σ',
      process_map_dirs config gi flags tree fuel dirs σ = .ok σ' →
      σ.length ≤ σ'.length ∧
      ∀ i, i < σ.length → storeRead σ' i = storeRead σ i := by
  intro dirs
  induction dirs with
  | nil =>
    intro σ σ' h
    unfold process_map_dirs at h
    injection h with h1
    subst h1
    exact ⟨Nat.le_refl _, fun i _ => rfl⟩
  | cons d rest ih =>
    intro σ σ' h
    unfold process_map_dirs at h
    split at h
    · cases h
    · next σ1 hpd =>
      obtain ⟨hl1, hr1⟩ := process_map_dir_frame config gi flags tree fuel d
        σ σ1 hpd
      obtain ⟨hl2, hr2⟩ := ih σ1 σ' h
      exact ⟨by omega, fun i hi => (hr2 i (by omega)).trans (hr1 i hi)⟩

/-- Claim C8: a scan never mutates the canonical Configuration.  In the
store embedding, every RepoEntry object's mutable count field is a store
cell and the Configuration owns exactly the cells of the initial store; a
completed full scan returns a store in which every one of those cells still
holds its initial value, because every backlog is built from freshly
allocated replace copies and only backlog cells are ever incremented.  (All
non-count fields are shared immutably by the copies; the diff scan performs
no count mutation at all, as its embedding is store-free.) -/
theorem C8_scan_never_mutates_config_counts (config : Configuration)
    (gi : Option (String → Bool)) (flags : Flags) (tree : FSNode) (fuel : Nat)
    (σ σ' : CountStore)
    (h : assert_full_repository_structure config gi flags tree fuel σ = .ok σ') :
    ∀ i, i < σ.length → storeRead σ' i = storeRead σ i := by
  unfold assert_full_repository_structure at h
  by_cases hroot : (config.directory_map.lookup "/").isNone = true
  · rw [if_pos hroot] at h
    cases h
  · rw [if_neg hroot] at h
    exact (process_map_dirs_frame config gi flags tree fuel _ σ σ' h).2

/-- Witness for C8: the concrete scan of the docs tree increments only the
fresh backlog cell (cell 1) and leaves the configuration-owned cell 0
untouched. -/
theorem C8_witness :
    assert_full_repository_structure cfgDocs none {} treeDocs 9 [0] =
      .ok [0, 1] ∧
    storeRead [0, 1] 0 = storeRead [0] 0 :=
  ⟨by decide,
   C8_scan_never_mutates_config_counts cfgDocs none {} treeDocs 9 [0] [0, 1]
     (by decide) 0 (by decide)⟩

/-- Claim C6 counterexample: in cfgTwoMaps every rule of the configuration
(hence every rule reachable from the root mapping) has no Required entry,
the tree is empty, and the directory map contains the root mapping — yet the
full scan does not succeed: its second mapping names a directory that does
not exist in the empty tree, so os.scandir fails.  The claimed equivalence
(success iff no reachable Required entries) is therefore false as stated. -/
theorem C6_counterexample :
    (∀ kv ∈ cfgTwoMaps.structure_rules, ∀ e ∈ kv.2, e.is_required = false) ∧
    assert_full_repository_structure cfgTwoMaps none {} (.dir []) 9 [] =
      .error (.notFound "sub") := by
  constructor
  · decide
  · decide

/-- Claim C6 (amended): for every compile-time-valid configuration (every
mapped rule name exists or is the builtin ignore, no user rule shadows
ignore, all counts zero) whose directory map contains ONLY the root mapping,
the full scan of the empty tree succeeds exactly when no rule bound at the
root has a Required entry in its entry list.  For valid configurations the
rules reachable from the root are exactly those bound there, because inline
use_rule references are self-recursive. -/
theorem C6_amended_empty_tree_scan (config : Configuration)
    (gi : Option (String → Bool)) (flags : Flags) (fuel : Nat)
    (σ : CountStore) (rs : List String)
    (hzero : ∀ c, storeRead σ c = 0)
    (hroot : config.directory_map = [("/", rs)])
    (hvalid : ∀ r ∈ rs, r = "ignore" ∨ (config.structure_rules.lookup r).isSome)
    (hnoign : config.structure_rules.lookup "ignore" = none) :
    (∃ σ', assert_full_repository_structure config gi flags (.dir [])
        (fuel + 1) σ = .ok σ') ↔
      ∀ r ∈ rs, ∀ entries, config.structure_rules.lookup r = some entries →
        ∀ e ∈ entries, e.is_required = false := by
  have hlk : config.directory_map.lookup "/" = some rs := by
    rw [hroot]
    rfl
  have hassert : ∀ σ',
      assert_full_repository_structure config gi flags (.dir []) (fuel + 1) σ =
          .ok σ' ↔
      process_map_dir config gi flags (.dir []) (fuel + 1) "/" σ = .ok σ' := by
    intro σ'
    unfold assert_full_repository_structure
    rw [if_neg (by rw [hlk]; simp)]
    have hkeys : config.directory_map.map (·.1) = ["/"] := by
      rw [hroot]
      rfl
    rw [hkeys]
    unfold process_map_dirs
    cases hp : process_map_dir config gi flags (.dir []) (fuel + 1) "/" σ with
    | error e => simp
    | ok σ1 => simp [process_map_dirs]
  by_cases hri : rs = ["ignore"]
  · subst hri
    constructor
    · intro _ r hr entries hent
      simp at hr
      subst hr
      rw [hnoign] at hent
      cases hent
    · intro _
      refine ⟨σ, (hassert σ).mpr ?_⟩
      unfold process_map_dir
      rw [if_pos (by rw [hlk]; decide)]
  · obtain ⟨B, σ1, hbuild⟩ :=
      build_active_entry_backlog_success rs config.structure_rules hvalid σ
    have hz1 : ∀ c, storeRead σ1 c = 0 :=
      build_active_entry_backlog_zero rs _ σ B σ1 hzero hbuild
    have hrel : map_dir_to_rel_dir "/" = "" := by decide
    have hmb : map_dir_to_entry_backlog config.directory_map
        config.structure_rules "" σ = .ok (B, σ1) := by
      unfold map_dir_to_entry_backlog
      rw [show rel_dir_to_map_dir "" = "/" from by decide, hlk]
      exact hbuild
    have hsc : scan_children config gi flags (fuel + 1) "" [] B σ1 =
        .ok σ1 := by
      rw [scan_children]
    have hpd : process_map_dir config gi flags (.dir []) (fuel + 1) "/" σ =
        (match fail_if_required_entries_missing σ1 B with
         | .error e => .error e
         | .ok _ => .ok σ1) := by
      unfold process_map_dir
      rw [if_neg (by rw [hlk]; simpa using hri)]
      dsimp only
      rw [hrel, hmb]
      dsimp only
      rw [show scandir (.dir []) "" = .ok [] from rfl]
      dsimp only
      rw [hsc]
    have hfail : fail_if_required_entries_missing σ1 B = .ok () ↔
        ∀ e ∈ B, e.is_required = false := by
      rw [fail_if_required_entries_missing_ok_iff]
      constructor
      · intro hA e he
        by_contra hr
        rw [Bool.not_eq_false] at hr
        exact hA e he ⟨hr, hz1 e.cid⟩
      · rintro hA e he ⟨hr, _⟩
        rw [hA e he] at hr
        cases hr
    have hreq := build_active_entry_backlog_required_iff rs
      config.structure_rules σ B σ1 hbuild
    constructor
    · rintro ⟨σ', hok⟩ r hr entries hent e he
      rw [hassert σ', hpd] at hok
      by_contra hrq
      rw [Bool.not_eq_false] at hrq
      have hex : ∃ e ∈ B, e.is_required = true := by
        apply hreq.mpr
        refine ⟨r, hr, ?_, entries, hent, e, he, hrq⟩
        intro heq
        subst heq
        rw [hnoign] at hent
        cases hent
      obtain ⟨e', he', hr'⟩ := hex
      cases hff : fail_if_required_entries_missing σ1 B with
      | error err =>
        rw [hff] at hok
        cases hok
      | ok u =>
        cases u
        have := (hfail.mp hff) e' he'
        rw [this] at hr'
        cases hr'
    · intro hall
      have hnone : ∀ e ∈ B, e.is_required = false := by
        intro e he
        by_contra hr
        rw [Bool.not_eq_false] at hr
        obtain ⟨r, hrm, hrne, entries, hent, e0, he0, hr0⟩ :=
          hreq.mp ⟨e, he, hr⟩
        have := hall r hrm entries hent e0 he0
        rw [this] at hr0
        cases hr0
      refine ⟨σ1, (hassert σ1).mpr ?_⟩
      rw [hpd, hfail.mpr hnone]

/-- Witness for the amended C6: a root-only configuration requiring
README.md fails the empty-tree scan. -/
theorem C6_witness :
    ¬∃ σ', assert_full_repository_structure cfgRootReadme none {} (.dir [])
        (2 + 1) [0] = .ok σ' := by
  intro hex
  have h := (C6_amended_empty_tree_scan cfgRootReadme none {} 2 [0] ["base"]
    (by intro c; cases c <;> rfl) rfl (by decide) (by rfl)).mp hex
  have hfalse := h "base" (by decide) [sampleReadme] (by rfl) sampleReadme
    (List.mem_singleton.mpr rfl)
  exact absurd hfalse (by decide)

theorem splitOnSlashChars_ne_nil (l : List Char) : splitOnSlashChars l ≠ [] := by
  cases l with
  | nil => simp [splitOnSlashChars]
  | cons c rest =>
    unfold splitOnSlashChars
    split <;> simp

theorem pySplitSlash_ne_nil (s : String) : pySplitSlash s ≠ [] := by
  unfold pySplitSlash
  simp [splitOnSlashChars_ne_nil]

/-- Claim C9: the incremental path split yields exactly one triple per
slash-separated segment of the stripped path, where triple i is (the
slash-join of segments 0..i-1, segment i, i below the last index); in
particular the final segment is always tagged as a file (is_directory
false), which is why check_path matches a path naming a directory against
file entries at its last segment. -/
theorem C9_incremental_path_split_shape (p : String) :
    (incremental_path_split p).length =
      (pySplitSlash (pyStripSlashes p)).length ∧
    (∀ i, i < (pySplitSlash (pyStripSlashes p)).length →
      (incremental_path_split p).getD i ("", "", false) =
        (pyJoinSlash ((pySplitSlash (pyStripSlashes p)).take i),
         (pySplitSlash (pyStripSlashes p)).getD i "",
         decide (i < (pySplitSlash (pyStripSlashes p)).length - 1))) ∧
    (incremental_path_split p).getLast?.map (fun t => t.2.2) = some false := by
  refine ⟨by simp [incremental_path_split], ?_, ?_⟩
  · intro i hi
    unfold incremental_path_split
    rw [List.getD_eq_getElem _ _ (by simpa using hi)]
    simp
  · have hne := pySplitSlash_ne_nil (pyStripSlashes p)
    have hpos : 0 < (pySplitSlash (pyStripSlashes p)).length :=
      List.length_pos.mpr hne
    unfold incremental_path_split
    rw [List.getLast?_eq_getElem?]
    simp only [List.length_map, List.length_range, List.getElem?_map]
    rw [List.getElem?_range (by omega)]
    simp [Nat.lt_irrefl]

/-- Claim C10: whenever the backlog built from the directory-map entry
selected for a path is empty, check_path returns success (no issue) without
matching any segment, whatever the path. -/
theorem C10_empty_backlog_returns_none (config : Configuration)
    (flags : Flags) (path : String)
    (h : map_dir_to_entry_backlog_pure config.directory_map
        config.structure_rules
        (map_dir_to_rel_dir (get_corresponding_map_dir config path)) =
      .ok []) :
    check_path config flags path = .ok none := by
  unfold check_path
  dsimp only
  rw [h]
  rfl

/-- Witness for C10: the python directory is mapped to the builtin ignore
rule, so its backlog is empty and any path below it passes, although
python/main.py matches no rule of the configuration. -/
theorem C10_witness :
    check_path cfgIgnoreSub {} "python/main.py" = .ok none :=
  C10_empty_backlog_returns_none cfgIgnoreSub {} "python/main.py" (by rfl)

/-- Claim C4 is violated by the code at a concrete input: for cfgDocs and
the tree whose only entry is the directory docs, the full scan succeeds, so
it reports no error at any path, while check_path reports an
unspecified_entry issue whose path is the existing directory path docs (the
diff scan tags the final segment of every path as a file and so rejects it
against the directory rule).  The spec's required diff/full agreement fails
on the code. -/
theorem C4_diff_and_full_scan_disagree :
    check_path cfgDocs {} "docs" =
      .ok (some ⟨"unspecified_entry",
        "Unspecified entry docs found. Map dir: /", "docs"⟩) ∧
    assert_full_repository_structure cfgDocs none {} treeDocs 9 [0] =
      .ok [0, 1] := by
  exact ⟨by decide, by decide⟩

theorem expand_template_entry_length (key v : String) :
    ∀ fuel es, (expand_template_entry key v fuel es).length = es.length := by
  intro fuel
  induction fuel with
  | zero => intro es; rfl
  | succ fuel ih =>
    intro es
    cases es with
    | nil => rfl
    | cons e rest =>
      cases e with
      | mk k p r u l => simp [expand_template_entry, ih]

theorem subst_foldl_length (tfuel : Nat) (i : Nat) :
    ∀ (em : List (String × List String)) (es : List YamlEntry),
      (em.foldl (fun es kv =>
        expand_template_entry kv.1 (kv.2.getD (i % kv.2.length) "") tfuel es)
        es).length = es.length := by
  intro em
  induction em with
  | nil => intro es; rfl
  | cons kv rest ih =>
    intro es
    simp only [List.foldl_cons]
    rw [ih, expand_template_entry_length]

theorem substitute_params_eq_foldl (tfuel : Nat) (i : Nat) :
    ∀ (em : List (String × List String)) es, (∀ kv ∈ em, kv.2 ≠ []) →
      substitute_params tfuel i em es =
        .ok (em.foldl (fun es kv =>
          expand_template_entry kv.1 (kv.2.getD (i % kv.2.length) "") tfuel es)
          es) := by
  intro em
  induction em with
  | nil => intro es _; rfl
  | cons kv rest ih =>
    intro es hne
    obtain ⟨key, vars⟩ := kv
    unfold substitute_params
    rw [if_neg (by
      simpa [List.length_eq_zero] using hne (key, vars) (List.mem_cons_self _ _))]
    rw [ih _ (fun kv hk => hne kv (List.mem_cons_of_mem _ hk))]
    simp

theorem expand_template_copies_eq (tfuel : Nat) (u : String)
    (em : List (String × List String)) (tys : List (String × List YamlEntry))
    (tmpl : List YamlEntry) (hfound : tys.lookup u = some tmpl)
    (hne : ∀ kv ∈ em, kv.2 ≠ []) :
    ∀ is, expand_template_copies tfuel u em tys is =
      .ok ((is.map fun i => em.foldl (fun es kv =>
        expand_template_entry kv.1 (kv.2.getD (i % kv.2.length) "") tfuel es)
        tmpl).flatten) := by
  intro is
  induction is with
  | nil => rfl
  | cons i rest ih =>
    unfold expand_template_copies
    rw [hfound]
    dsimp only
    rw [substitute_params_eq_foldl tfuel i em tmpl hne]
    dsimp only
    rw [ih]
    simp

/-- Claim C5: template expansion produces exactly n = max(len(values))
substituted copies of the template's entry list, where copy i substitutes
every parameter key by its value at index i mod len(values) (round-robin),
all appended into one synthetic structure rule stored under the name derived
deterministically from the owning directory and the template name and
appended to the owning directory's rule list.  In particular parameters
a = [x, y], b = [1] yield two expansions with b reused (see the witness). -/
theorem C5_template_expansion (compile : String → (String → Bool))
    (tfuel : Nat) (directory use_template : String)
    (expansion_map : List (String × List String))
    (templates_yaml : List (String × List YamlEntry))
    (tmpl : List YamlEntry) (config config' : Configuration)
    (hfound : templates_yaml.lookup use_template = some tmpl)
    (hne : ∀ kv ∈ expansion_map, kv.2 ≠ [])
    (hok : parse_use_template compile tfuel directory use_template
        expansion_map templates_yaml config = .ok config') :
    ∃ copies : List (List YamlEntry),
      copies = (List.range (max_values_length expansion_map)).map (fun i =>
        expansion_map.foldl (fun es kv =>
          expand_template_entry kv.1 (kv.2.getD (i % kv.2.length) "") tfuel es)
          tmpl) ∧
      copies.length = max_values_length expansion_map ∧
      (∀ c ∈ copies, c.length = tmpl.length) ∧
      expand_template tfuel use_template expansion_map templates_yaml =
        .ok copies.flatten ∧
      config'.structure_rules = dictSet config.structure_rules
        (template_rule_name directory use_template)
        (parse_entry_list compile tfuel copies.flatten) ∧
      config'.directory_map = dmAppendRule config.directory_map directory
        (template_rule_name directory use_template) := by
  have hexp : expand_template tfuel use_template expansion_map templates_yaml =
      .ok (((List.range (max_values_length expansion_map)).map fun i =>
        expansion_map.foldl (fun es kv =>
          expand_template_entry kv.1 (kv.2.getD (i % kv.2.length) "") tfuel es)
          tmpl).flatten) := by
    unfold expand_template
    exact expand_template_copies_eq tfuel use_template expansion_map
      templates_yaml tmpl hfound hne (List.range _)
  unfold parse_use_template at hok
  rw [hexp] at hok
  dsimp only at hok
  injection hok with h1
  subst h1
  refine ⟨_, rfl, by simp, ?_, hexp, rfl, rfl⟩
  intro c hc
  obtain ⟨i, hi, heq⟩ := List.mem_map.mp hc
  rw [← heq]
  exact subst_foldl_length tfuel i expansion_map tmpl

/-- Witness for C5: parameters a = [x, y], b = [1] produce exactly two
copies of the one-entry template, with b reused round-robin: patterns x_1
and y_1. -/
theorem C5_witness :
    expand_template 9 "t" paramsAB [("t", tmplAB)] =
      .ok [.mk "require" "x_1" none "" [], .mk "require" "y_1" none "" []] ∧
    max_values_length paramsAB = 2 := by
  obtain ⟨copies, hcdef, hclen, hcel, hexp, hsr, hdm⟩ :=
    C5_template_expansion compile0 9 "/" "t" paramsAB [("t", tmplAB)] tmplAB
      cfgTrivial cfg5result rfl (by decide) (by rfl)
  refine ⟨?_, rfl⟩
  rw [hexp, hcdef]
  rfl

/-- Claim C7: rule compilation raises UseRuleError exactly when some rule's
entry list contains an entry whose use_rule is non-empty and names a rule
different from the one it is defined under; when every inline use_rule
names its own enclosing rule, compilation passes this check. -/
theorem C7_use_rule_must_be_recursive (rules : StructureRuleMap) :
    (∃ err, validate_use_rule_only_recursive rules = .error err) ↔
      ∃ kv ∈ rules, ∃ e ∈ kv.2, e.use_rule ≠ "" ∧ e.use_rule ≠ kv.1 := by
  induction rules with
  | nil => simp [validate_use_rule_only_recursive]
  | cons kv rest ih =>
    obtain ⟨rule_key, entries⟩ := kv
    unfold validate_use_rule_only_recursive
    cases hf : entries.find?
        (fun e => e.use_rule != "" && e.use_rule != rule_key) with
    | some e =>
      constructor
      · intro _
        refine ⟨(rule_key, entries), List.mem_cons_self _ _, e,
          List.mem_of_find?_eq_some hf, ?_⟩
        have := List.find?_some hf
        simpa using this
      · intro _
        exact ⟨_, rfl⟩
    | none =>
      have hnone := List.find?_eq_none.mp hf
      constructor
      · intro hex
        obtain ⟨kv', hm, e, he, h1, h2⟩ := ih.mp hex
        exact ⟨kv', List.mem_cons_of_mem _ hm, e, he, h1, h2⟩
      · rintro ⟨kv', hm, e, he, h1, h2⟩
        rcases List.mem_cons.mp hm with heq | hmem
        · subst heq
          exact absurd (by simpa using And.intro h1 h2) (by simpa using hnone e he)
        · exact ih.mpr ⟨kv', hmem, e, he, h1, h2⟩

/-- Witness for C7: a single non-recursive use_rule reference raises the
error; a rule set whose only inline reference is self-recursive passes. -/
theorem C7_witness :
    (∃ err, validate_use_rule_only_recursive badUseRules = .error err) ∧
    validate_use_rule_only_recursive goodUseRules = .ok () := by
  constructor
  · exact (C7_use_rule_must_be_recursive badUseRules).mpr
      ⟨("r", [.mk "d" (fun s => s == "d") true false false "other" [] 0]),
       List.mem_singleton.mpr rfl,
       .mk "d" (fun s => s == "d") true false false "other" [] 0,
       List.mem_singleton.mpr rfl, by decide, by decide⟩
  · rfl

end RepoStructure
